import Mathlib

/-!
Verification of the movie-table normalization and aggregation pipeline of
`streamlit_app.py` (TOP-250 Movies Explorer).

The development shallowly embeds the data-handling core of the script:

* `PyVal` models the dynamically typed cell values a pandas DataFrame cell
  can hold in this pipeline (strings, ints, floats, bools, `None`, `NaN`,
  lists and tuples).  Python floats are modelled as rationals (`ℚ`); no
  claim here depends on binary floating-point rounding.
* `parse_str_list` is a direct translation of the helper of the same name,
  including its use of `ast.literal_eval` (modelled by `literalEval`, a
  recursive-descent reader of Python list/tuple/string/number literals)
  and its comma-splitting fallback.
* `missing_cols` / `run_pipeline` model the schema validation, the
  reprojection to `EXPECTED_COLUMNS`, and `ensure_dtypes`.
* `explodeOn` models `DataFrame.explode` followed by the column rename
  (pandas emits a single row with a missing value for an empty list).
* `df_cast`, `screentime`, `most_gross`, `most_active` and their `_top10`
  truncations model `compute_actor_tables`; `patience_df`, `df_directors`,
  `spielberg_df`, `spielberg_total_duration` model the derived views.
  pandas `sort_values` is modelled with `List.insertionSort` over
  relations that put missing keys last, matching `na_position="last"`.
-/

/-! ## String helpers (kernel-computable, over `List Char`) -/

/-- Drop characters satisfying `p` from both ends of a string
(the model of Python `str.strip(chars)`). -/
def stripIf (p : Char → Bool) (s : String) : String :=
  String.mk (((s.data.dropWhile p).reverse.dropWhile p).reverse)

/-- Python `str.strip()` (whitespace from both ends). -/
def pystrip (s : String) : String :=
  stripIf Char.isWhitespace s

/-- Python `str.strip(" '\"")` as used on parsed list elements. -/
def stripQW (s : String) : String :=
  stripIf (fun c => c == ' ' || c == '\'' || c == '"') s

/-- Split a character list at commas (the model of Python `str.split(",")`). -/
def splitCommaChars : List Char → List Char → List String
  | [], acc => [String.mk acc.reverse]
  | ',' :: rest, acc => String.mk acc.reverse :: splitCommaChars rest []
  | c :: rest, acc => splitCommaChars rest (c :: acc)

/-- Python `[item.strip() for item in text.split(",") if item.strip()]`. -/
def splitCommaClean (text : String) : List String :=
  ((splitCommaChars text.data []).map pystrip).filter (fun s => s != "")

/-- Whether the string starts with the given character. -/
def headIs (s : String) (c : Char) : Bool :=
  match s.data with
  | [] => false
  | d :: _ => d == c

/-- Whether the string ends with the given character. -/
def lastIs (s : String) (c : Char) : Bool :=
  match s.data.reverse with
  | [] => false
  | d :: _ => d == c

/-- Python `str.lower()` (ASCII case folding suffices here). -/
def pylower (s : String) : String :=
  String.mk (s.data.map Char.toLower)

/-- Kernel-computable lexicographic comparison of character lists. -/
def charListLeb : List Char → List Char → Bool
  | [], _ => true
  | _ :: _, [] => false
  | a :: as, b :: bs => if a == b then charListLeb as bs else decide (a < b)

/-- Lexicographic order on strings used to model pandas' sorted group keys. -/
def strLE (a b : String) : Prop :=
  charListLeb a.data b.data = true

instance : DecidableRel strLE := fun a b =>
  inferInstanceAs (Decidable (charListLeb a.data b.data = true))

/-! ## Python cell values -/

/-- A dynamically typed pandas cell value, as this pipeline can see one. -/
inductive PyVal where
  | pystr : String → PyVal
  | pyint : Int → PyVal
  | pyfloat : ℚ → PyVal
  | pybool : Bool → PyVal
  | pynone : PyVal
  | pynan : PyVal
  | pylist : List PyVal → PyVal
  | pytuple : List PyVal → PyVal

mutual

/-- Python `==` on the modelled values (used by `nunique`'s deduplication). -/
def pyBeq : PyVal → PyVal → Bool
  | .pystr a, .pystr b => a == b
  | .pyint a, .pyint b => a == b
  | .pyfloat a, .pyfloat b => a == b
  | .pybool a, .pybool b => a == b
  | .pynone, .pynone => true
  | .pynan, .pynan => true
  | .pylist xs, .pylist ys => pyBeqList xs ys
  | .pytuple xs, .pytuple ys => pyBeqList xs ys
  | _, _ => false

/-- Elementwise `pyBeq` on lists. -/
def pyBeqList : List PyVal → List PyVal → Bool
  | [], [] => true
  | a :: as, b :: bs => pyBeq a b && pyBeqList as bs
  | _, _ => false

end

/-- Decimal rendering of a rational, used to model `str` on Python floats.
(The pipeline's claims never inspect this text; any total rendering works.) -/
def ratText (q : ℚ) : String :=
  if q.den = 1 then toString q.num ++ ".0"
  else toString q.num ++ "/" ++ toString q.den

mutual

/-- Python `repr` for the modelled values (quotes around strings). -/
def pyRepr : PyVal → String
  | .pystr s => "'" ++ s ++ "'"
  | .pyint n => toString n
  | .pyfloat q => ratText q
  | .pybool b => if b then "True" else "False"
  | .pynone => "None"
  | .pynan => "nan"
  | .pylist xs => "[" ++ pyReprJoin xs ++ "]"
  | .pytuple [x] => "(" ++ pyRepr x ++ ",)"
  | .pytuple xs => "(" ++ pyReprJoin xs ++ ")"

/-- Comma-join of the `repr`s of a list of values. -/
def pyReprJoin : List PyVal → String
  | [] => ""
  | [x] => pyRepr x
  | x :: y :: ys => pyRepr x ++ ", " ++ pyReprJoin (y :: ys)

end

/-- Python `str` for the modelled values (strings unquoted). -/
def pyStr : PyVal → String
  | .pystr s => s
  | v => pyRepr v

/-- `pd.isna` on the scalar values this pipeline feeds it.  For the values of
`PyVal`, pandas returns a plain boolean and never raises: lists are handled
before the call, and tuples fall in `pd.isna`'s final catch-all `False`. -/
def pyIsna : PyVal → Bool
  | .pynone => true
  | .pynan => true
  | _ => false

/-! ## A model of `ast.literal_eval` for list/tuple/scalar literals -/

/-- Drop leading whitespace characters. -/
def skipWS (cs : List Char) : List Char :=
  cs.dropWhile Char.isWhitespace

/-- Digits to a natural number. -/
def digitsToNat (ds : List Char) : Nat :=
  ds.foldl (fun acc c => acc * 10 + (c.toNat - 48)) 0

/-- Read a (possibly signed, possibly fractional) numeric literal. -/
def readNumber (cs : List Char) : Option (PyVal × List Char) :=
  let signed : Bool × List Char :=
    match cs with
    | '-' :: rest => (true, rest)
    | '+' :: rest => (false, rest)
    | _ => (false, cs)
  let neg := signed.1
  let cs1 := signed.2
  let ds := cs1.takeWhile Char.isDigit
  let rest1 := cs1.dropWhile Char.isDigit
  if ds.isEmpty then Option.none
  else
    match rest1 with
    | '.' :: rest2 =>
        let fs := rest2.takeWhile Char.isDigit
        let rest3 := rest2.dropWhile Char.isDigit
        let iv : ℚ := (digitsToNat ds : ℚ) + (digitsToNat fs : ℚ) / ((10 : ℚ) ^ fs.length)
        some (.pyfloat (if neg then -iv else iv), rest3)
    | _ =>
        let n : Int := (digitsToNat ds : Int)
        some (.pyint (if neg then -n else n), rest1)

/-- Read a quoted string literal delimited by `q` (no escape sequences,
which never occur in this dataset's cells). -/
def readQuoted (q : Char) (rest : List Char) : Option (PyVal × List Char) :=
  let content := rest.takeWhile (fun c => c != q)
  let rem := rest.dropWhile (fun c => c != q)
  match rem with
  | _ :: rem2 => some (.pystr (String.mk content), rem2)
  | [] => Option.none

mutual

/-- Read one Python literal value from the character stream. -/
def readLit : Nat → List Char → Option (PyVal × List Char)
  | 0, _ => Option.none
  | fuel + 1, cs =>
    match skipWS cs with
    | [] => Option.none
    | '\'' :: rest => readQuoted '\'' rest
    | '"' :: rest => readQuoted '"' rest
    | '[' :: rest =>
        match readElems fuel ']' rest with
        | some (vs, _, rem) => some (.pylist vs, rem)
        | Option.none => Option.none
    | '(' :: rest =>
        match readElems fuel ')' rest with
        | some ([v], false, rem) => some (v, rem)
        | some (vs, _, rem) => some (.pytuple vs, rem)
        | Option.none => Option.none
    | 'N' :: 'o' :: 'n' :: 'e' :: rest => some (.pynone, rest)
    | 'T' :: 'r' :: 'u' :: 'e' :: rest => some (.pybool true, rest)
    | 'F' :: 'a' :: 'l' :: 's' :: 'e' :: rest => some (.pybool false, rest)
    | cs' => readNumber cs'

/-- Read comma-separated literals up to the closing character; the middle
component records whether a trailing comma was present (so that `(5)` can be
distinguished from the one-element tuple `(5,)`). -/
def readElems : Nat → Char → List Char → Option (List PyVal × Bool × List Char)
  | 0, _, _ => Option.none
  | fuel + 1, close, cs =>
    match skipWS cs with
    | [] => Option.none
    | c :: rest =>
      if c = close then some ([], false, rest)
      else
        match readLit fuel (c :: rest) with
        | Option.none => Option.none
        | some (v, cs2) =>
          match skipWS cs2 with
          | ',' :: rest2 =>
              (match skipWS rest2 with
               | c2 :: rest3 =>
                 if c2 = close then some ([v], true, rest3)
                 else
                   match readElems fuel close (c2 :: rest3) with
                   | some (vs, tr, rem) => some (v :: vs, tr, rem)
                   | Option.none => Option.none
               | [] => Option.none)
          | c2 :: rest2 => if c2 = close then some ([v], false, rest2) else Option.none
          | [] => Option.none

end

/-- The model of `ast.literal_eval`: `Option.none` models the exceptional
outcome (`ValueError`/`SyntaxError`), which the caller catches. -/
def literalEval (s : String) : Option PyVal :=
  match readLit (s.data.length + 2) s.data with
  | some (v, rem) => if skipWS rem = [] then some v else Option.none
  | Option.none => Option.none

/-! ## `parse_str_list` -/

/-- The `try: parsed = ast.literal_eval(text) ...` block of `parse_str_list`:
keep a successful list/tuple parse (elements stringified and quote-stripped);
any other outcome, including the caught exception, falls back to comma
splitting of the original text. -/
def literalBranch (text : String) : List String :=
  match literalEval text with
  | some (.pylist xs) => xs.map (fun x => stripQW (pyStr x))
  | some (.pytuple xs) => xs.map (fun x => stripQW (pyStr x))
  | _ => splitCommaClean text

/-- Direct translation of `parse_str_list` from `streamlit_app.py`:
real lists are normalized elementwise; `None`/`NaN` yield `[]`; otherwise the
cell's text is stripped, bracket- or paren-delimited text is tried as a
Python literal (keeping only list/tuple results), and everything else falls
back to comma splitting. -/
def parse_str_list (cell : PyVal) : List String :=
  match cell with
  | .pylist xs => xs.map (fun x => stripQW (pyStr x))
  | .pynone => []
  | _ =>
    if pyIsna cell then []
    else
      let text := pystrip (pyStr cell)
      if text = "" then []
      else if (headIs text '[' && lastIs text ']') || (headIs text '(' && lastIs text ')') then
        literalBranch text
      else splitCommaClean text

/-- `ast.literal_eval` with its exceptional outcome made explicit. -/
def literalEvalE (s : String) : Except String PyVal :=
  match literalEval s with
  | some v => Except.ok v
  | Option.none => Except.error "ValueError: malformed node or string"

/-- `pd.isna` with its (historical) `TypeError` outcome made explicit; on the
values of `PyVal` the call in fact always returns a boolean. -/
def pyIsnaE (v : PyVal) : Except String Bool :=
  Except.ok (pyIsna v)

/-- The literal-parsing block with the `ast.literal_eval` exception made
explicit: the `except` clause turns any error into the comma-split fallback,
so the block itself always returns `ok`. -/
def literalBranchE (text : String) : Except String (List String) :=
  match literalEvalE text with
  | Except.ok (.pylist xs) => Except.ok (xs.map (fun x => stripQW (pyStr x)))
  | Except.ok (.pytuple xs) => Except.ok (xs.map (fun x => stripQW (pyStr x)))
  | Except.ok _ => Except.ok (splitCommaClean text)
  | Except.error _ => Except.ok (splitCommaClean text)

/-- `parse_str_list` with every exception-bearing call threaded through
`Except`: a `TypeError` from `pd.isna` is caught and falls through to text
handling, and a failure of `ast.literal_eval` is caught and falls through to
comma splitting, exactly as the `try`/`except` blocks of the source do. -/
def parse_str_listE (cell : PyVal) : Except String (List String) :=
  match cell with
  | .pylist xs => Except.ok (xs.map (fun x => stripQW (pyStr x)))
  | .pynone => Except.ok []
  | _ =>
    let isnaRes : Bool :=
      match pyIsnaE cell with
      | Except.ok b => b
      | Except.error _ => false
    if isnaRes then Except.ok []
    else
      let text := pystrip (pyStr cell)
      if text = "" then Except.ok []
      else if (headIs text '[' && lastIs text ']') || (headIs text '(' && lastIs text ')') then
        literalBranchE text
      else Except.ok (splitCommaClean text)

example : parse_str_list (.pystr "['A', 'B']") = ["A", "B"] := by decide
example : parse_str_list (.pystr "A, B, C") = ["A", "B", "C"] := by decide
example : parse_str_list (.pystr "") = [] := by decide
example : parse_str_list .pynone = [] := by decide
example : parse_str_list (.pylist [.pystr "X", .pystr "Y"]) = ["X", "Y"] := by decide
example : parse_str_list (.pystr "(5)") = ["(5)"] := by decide
example : literalEval "(5)" = some (.pyint 5) := rfl
example : parse_str_list (.pystr "['A', '']") = ["A", ""] := by decide

/-! ## Schema validation and type coercion (`EXPECTED_COLUMNS`, `ensure_dtypes`) -/

/-- The 14 required columns, in canonical order (from `streamlit_app.py`). -/
def EXPECTED_COLUMNS : List String :=
  ["url", "title", "ratingValue", "ratingCount", "year", "description",
   "budget", "gross", "duration", "genreList", "countryList", "castList",
   "characterList", "directorList"]

/-- Parse a whole string as a number (the string case of
`pd.to_numeric(..., errors="coerce")`). -/
def parseNumText (s : String) : Option ℚ :=
  match readNumber (pystrip s).data with
  | some (.pyint n, rest) => if rest = [] then some (n : ℚ) else Option.none
  | some (.pyfloat q, rest) => if rest = [] then some q else Option.none
  | _ => Option.none

/-- Per-cell `pd.to_numeric(..., errors="coerce")`: numbers pass through,
booleans coerce to 0/1, anything unparsable becomes missing, never an error. -/
def toNumeric : PyVal → Option ℚ
  | .pyint n => some (n : ℚ)
  | .pyfloat q => some q
  | .pybool b => some (if b then 1 else 0)
  | .pynone => Option.none
  | .pynan => Option.none
  | .pystr s => parseNumText s
  | .pylist _ => Option.none
  | .pytuple _ => Option.none

/-- A coerced table row: the six numeric columns are nullable rationals, the
five list columns hold parsed string lists, and the three text columns pass
through untouched. -/
structure MovieRecord where
  url : PyVal
  title : PyVal
  ratingValue : Option ℚ
  ratingCount : Option ℚ
  year : Option ℚ
  description : PyVal
  budget : Option ℚ
  gross : Option ℚ
  duration : Option ℚ
  genreList : List String
  countryList : List String
  castList : List String
  characterList : List String
  directorList : List String

/-- A raw uploaded table: its column names and its rows as column/value
association lists. -/
structure RawTable where
  cols : List String
  rows : List (List (String × PyVal))

/-- Cell lookup in a raw row; a column absent from the row reads as `NaN`
(only reachable before validation). -/
def rowGet (r : List (String × PyVal)) (c : String) : PyVal :=
  match r.find? (fun p => p.1 == c) with
  | some p => p.2
  | Option.none => PyVal.pynan

/-- `missing_cols = [c for c in EXPECTED_COLUMNS if c not in df_raw.columns]`. -/
def missing_cols (t : RawTable) : List String :=
  EXPECTED_COLUMNS.filter (fun c => !(t.cols.contains c))

/-- `df_raw[EXPECTED_COLUMNS]` applied to one row: keep exactly the expected
columns, in canonical order. -/
def projectRow (r : List (String × PyVal)) : List (String × PyVal) :=
  EXPECTED_COLUMNS.map (fun c => (c, rowGet r c))

/-- `ensure_dtypes` on one (already projected) row. -/
def ensure_dtypes_row (r : List (String × PyVal)) : MovieRecord :=
  { url := rowGet r "url"
    title := rowGet r "title"
    ratingValue := toNumeric (rowGet r "ratingValue")
    ratingCount := toNumeric (rowGet r "ratingCount")
    year := toNumeric (rowGet r "year")
    description := rowGet r "description"
    budget := toNumeric (rowGet r "budget")
    gross := toNumeric (rowGet r "gross")
    duration := toNumeric (rowGet r "duration")
    genreList := parse_str_list (rowGet r "genreList")
    countryList := parse_str_list (rowGet r "countryList")
    castList := parse_str_list (rowGet r "castList")
    characterList := parse_str_list (rowGet r "characterList")
    directorList := parse_str_list (rowGet r "directorList") }

/-- `ensure_dtypes` over the whole table. -/
def ensure_dtypes (rows : List (List (String × PyVal))) : List MovieRecord :=
  rows.map ensure_dtypes_row

/-- The upload pipeline up to the coerced table: validate the schema (halting
with the missing column names), reproject to `EXPECTED_COLUMNS`, then coerce.
The successful result carries the output column list alongside the rows. -/
def run_pipeline (t : RawTable) :
    Except (List String) (List String × List MovieRecord) :=
  if missing_cols t = [] then
    Except.ok (EXPECTED_COLUMNS, ensure_dtypes (t.rows.map projectRow))
  else
    Except.error (missing_cols t)

/-! ## Relation exploding (`DataFrame.explode` + rename) -/

/-- pandas `df.explode(col)` followed by the rename to a scalar entity field:
one output row per list element, in list order, all other fields copied from
the source row; an *empty* list yields a single row whose entity value is
missing (pandas puts `NaN` there). -/
def explodeOn (get : MovieRecord → List String)
    (df : List MovieRecord) : List (Option String × MovieRecord) :=
  df.flatMap (fun r =>
    match get r with
    | [] => [(Option.none, r)]
    | xs => xs.map (fun x => (some x, r)))

/-! ## Actor tables (`compute_actor_tables`) -/

/-- `df.explode("castList").rename(...)`, then `dropna(subset=["actor"])`,
then `astype(str).str.strip()` — the rows actor aggregation runs on. -/
def df_cast (df : List MovieRecord) : List (String × MovieRecord) :=
  (explodeOn MovieRecord.castList df).filterMap (fun p =>
    match p.1 with
    | some a => some (pystrip a, p.2)
    | Option.none => Option.none)

/-- The group keys of `groupby("actor")` (pandas sorts keys ascending). -/
def groupKeys (rows : List (String × MovieRecord)) : List String :=
  List.insertionSort strLE (rows.map Prod.fst).dedup

/-- `Series.sum(min_count=1)`: skip missing values, but an all-missing (or
empty) collection sums to missing, not zero. -/
def nullSum (l : List (Option ℚ)) : Option ℚ :=
  let vals := l.filterMap id
  if vals = [] then Option.none else some vals.sum

/-- `groupby("actor")[metric].sum(min_count=1)` as a key/aggregate list. -/
def groupNullSum (rows : List (String × MovieRecord))
    (metric : MovieRecord → Option ℚ) : List (String × Option ℚ) :=
  (groupKeys rows).map (fun k =>
    (k, nullSum ((rows.filter (fun p => p.1 == k)).map (fun p => metric p.2))))

/-- Descending order on nullable aggregates, missing values last
(`sort_values(ascending=False)` with its default `na_position="last"`). -/
def optDescLE (x y : Option ℚ) : Prop :=
  match x, y with
  | some a, some b => b ≤ a
  | some _, Option.none => True
  | Option.none, some _ => False
  | Option.none, Option.none => True

instance : DecidableRel optDescLE := fun x y =>
  match x, y with
  | some a, some b => inferInstanceAs (Decidable (b ≤ a))
  | some _, Option.none => inferInstanceAs (Decidable True)
  | Option.none, some _ => inferInstanceAs (Decidable False)
  | Option.none, Option.none => inferInstanceAs (Decidable True)

/-- Ascending order on nullable sort keys, missing values last. -/
def optAscLE (x y : Option ℚ) : Prop :=
  match x, y with
  | some a, some b => a ≤ b
  | some _, Option.none => True
  | Option.none, some _ => False
  | Option.none, Option.none => True

instance : DecidableRel optAscLE := fun x y =>
  match x, y with
  | some a, some b => inferInstanceAs (Decidable (a ≤ b))
  | some _, Option.none => inferInstanceAs (Decidable True)
  | Option.none, some _ => inferInstanceAs (Decidable False)
  | Option.none, Option.none => inferInstanceAs (Decidable True)

/-- Sort order of the aggregate tables: descending by aggregate, missing last. -/
def aggGE (a b : String × Option ℚ) : Prop :=
  optDescLE a.2 b.2

instance : DecidableRel aggGE := fun a b =>
  inferInstanceAs (Decidable (optDescLE a.2 b.2))

/-- Sort order of the patience view: descending by duration, missing last. -/
def durGE (a b : MovieRecord) : Prop :=
  optDescLE a.duration b.duration

instance : DecidableRel durGE := fun a b =>
  inferInstanceAs (Decidable (optDescLE a.duration b.duration))

/-- Sort order of the Spielberg display: ascending by year, missing last. -/
def yearRowLE (a b : Option String × MovieRecord) : Prop :=
  optAscLE a.2.year b.2.year

instance : DecidableRel yearRowLE := fun a b =>
  inferInstanceAs (Decidable (optAscLE a.2.year b.2.year))

/-- Descending order on counts. -/
def natGE (a b : String × Nat) : Prop :=
  b.2 ≤ a.2

instance : DecidableRel natGE := fun a b =>
  inferInstanceAs (Decidable (b.2 ≤ a.2))

/-- The screentime aggregate, sorted descending with missing totals last. -/
def screentime (df : List MovieRecord) : List (String × Option ℚ) :=
  List.insertionSort aggGE (groupNullSum (df_cast df) MovieRecord.duration)

/-- `screentime.head(10)` (renaming `duration → total_duration` is implicit). -/
def screentime_top10 (df : List MovieRecord) : List (String × Option ℚ) :=
  (screentime df).take 10

/-- The gross aggregate, sorted descending with missing totals last. -/
def most_gross (df : List MovieRecord) : List (String × Option ℚ) :=
  List.insertionSort aggGE (groupNullSum (df_cast df) MovieRecord.gross)

/-- `most_gross.head(10)` (renaming `gross → total_gross` is implicit). -/
def most_gross_top10 (df : List MovieRecord) : List (String × Option ℚ) :=
  (most_gross df).take 10

/-- Deduplication by a boolean equality test (the hashing behind `nunique`). -/
def dedupBy (eqb : α → α → Bool) : List α → List α
  | [] => []
  | x :: xs =>
      if (dedupBy eqb xs).any (eqb x) then dedupBy eqb xs else x :: dedupBy eqb xs

/-- `groupby("actor")["title"].nunique()` for one key: the number of distinct
non-missing titles in the group. -/
def nuniqueTitles (rows : List (String × MovieRecord)) (k : String) : Nat :=
  (dedupBy pyBeq
    (((rows.filter (fun p => p.1 == k)).map (fun p => p.2.title)).filter
      (fun t => !pyIsna t))).length

/-- The activity aggregate (distinct movie count), sorted descending. -/
def most_active (df : List MovieRecord) : List (String × Nat) :=
  List.insertionSort natGE
    ((groupKeys (df_cast df)).map (fun k => (k, nuniqueTitles (df_cast df) k)))

/-- `most_active.head(10)` (renaming `title → movie_count` is implicit). -/
def most_active_top10 (df : List MovieRecord) : List (String × Nat) :=
  (most_active df).take 10

/-! ## Derived views (patience, Spielberg) -/

/-- `df[df["duration"] >= 220].sort_values("duration", ascending=False)`;
a missing duration never satisfies `>=`. -/
def patience_df (df : List MovieRecord) : List MovieRecord :=
  List.insertionSort durGE
    (df.filter (fun r =>
      match r.duration with
      | some d => decide (220 ≤ d)
      | Option.none => false))

/-- `df.explode("directorList").rename(columns={"directorList": "director"})`. -/
def df_directors (df : List MovieRecord) : List (Option String × MovieRecord) :=
  explodeOn MovieRecord.directorList df

/-- `df_directors[df_directors["director"].str.lower() == "steven spielberg"]`;
a missing director (`NaN.str.lower()` stays `NaN`) never compares equal. -/
def spielberg_df (df : List MovieRecord) : List (Option String × MovieRecord) :=
  (df_directors df).filter (fun p =>
    match p.1 with
    | some s => pylower s == "steven spielberg"
    | Option.none => false)

/-- `Series.sum()` with its defaults (`skipna=True`, `min_count=0`): missing
values are skipped and an all-missing or empty series sums to `0`. -/
def pdSum (l : List (Option ℚ)) : ℚ :=
  l.foldl (fun acc x =>
    match x with
    | some v => acc + v
    | Option.none => acc) 0

/-- `spielberg_total_duration = spielberg_df["duration"].sum()`. -/
def spielberg_total_duration (df : List MovieRecord) : ℚ :=
  pdSum ((spielberg_df df).map (fun p => p.2.duration))

/-- The Spielberg rows as displayed: `.sort_values("year")` (ascending). -/
def spielberg_display (df : List MovieRecord) :
    List (Option String × MovieRecord) :=
  List.insertionSort yearRowLE (spielberg_df df)

example : toNumeric (.pystr "N/A") = Option.none := by decide
example : toNumeric (.pystr "142") = some 142 := by decide

/-! ## Supporting lemmas -/

/-- Totality of the descending null-last order. -/
theorem optDescLE_total (x y : Option ℚ) : optDescLE x y ∨ optDescLE y x := by
  cases x <;> cases y <;> simp [optDescLE]
  exact le_total _ _

/-- Transitivity of the descending null-last order. -/
theorem optDescLE_trans {x y z : Option ℚ} :
    optDescLE x y → optDescLE y z → optDescLE x z := by
  cases x <;> cases y <;> cases z <;> simp [optDescLE]
  exact fun h1 h2 => le_trans h2 h1

/-- Totality of the ascending null-last order. -/
theorem optAscLE_total (x y : Option ℚ) : optAscLE x y ∨ optAscLE y x := by
  cases x <;> cases y <;> simp [optAscLE]
  exact le_total _ _

/-- Transitivity of the ascending null-last order. -/
theorem optAscLE_trans {x y z : Option ℚ} :
    optAscLE x y → optAscLE y z → optAscLE x z := by
  cases x <;> cases y <;> cases z <;> simp [optAscLE]
  exact fun h1 h2 => le_trans h1 h2

instance : IsTotal (String × Option ℚ) aggGE :=
  ⟨fun a b => optDescLE_total a.2 b.2⟩

instance : IsTrans (String × Option ℚ) aggGE :=
  ⟨fun _ _ _ => optDescLE_trans⟩

instance : IsTotal MovieRecord durGE :=
  ⟨fun a b => optDescLE_total a.duration b.duration⟩

instance : IsTrans MovieRecord durGE :=
  ⟨fun _ _ _ => optDescLE_trans⟩

instance : IsTotal (Option String × MovieRecord) yearRowLE :=
  ⟨fun a b => optAscLE_total a.2.year b.2.year⟩

instance : IsTrans (Option String × MovieRecord) yearRowLE :=
  ⟨fun _ _ _ => optAscLE_trans⟩

/-- A sample coerced record with every field empty except the duration. -/
def mkMovie (dur : Option ℚ) : MovieRecord :=
  { url := .pystr "u"
    title := .pystr "t"
    ratingValue := Option.none
    ratingCount := Option.none
    year := Option.none
    description := .pystr ""
    budget := Option.none
    gross := Option.none
    duration := dur
    genreList := []
    countryList := []
    castList := []
    characterList := []
    directorList := [] }

/-! ## Claim C4 -/

/-- Claim C4: the Cell List Parser returns the spec's example values:
`parse("['A', 'B']") = ["A", "B"]`, `parse("A, B, C") = ["A", "B", "C"]`,
`parse("") = []`, `parse(None) = []`, `parse(["X", "Y"]) = ["X", "Y"]`. -/
theorem claim_C4_parse_examples :
    parse_str_list (.pystr "['A', 'B']") = ["A", "B"]
    ∧ parse_str_list (.pystr "A, B, C") = ["A", "B", "C"]
    ∧ parse_str_list (.pystr "") = []
    ∧ parse_str_list PyVal.pynone = []
    ∧ parse_str_list (.pylist [.pystr "X", .pystr "Y"]) = ["X", "Y"] :=
  ⟨by decide, by decide, by decide, by decide, by decide⟩

/-! ## Claim C10 -/

/-- Claim C10: if a trimmed text input is bracket- or paren-delimited and
parses successfully as a literal that is not a list or tuple, the parsed
value is discarded and the original trimmed text is comma-split instead
(so `parse("(5)") = ["(5)"]`, the delimiters retained in the element). -/
theorem claim_C10_nonlist_literal_falls_back (s : String) (v : PyVal)
    (hdelim : ((headIs (pystrip s) '[' && lastIs (pystrip s) ']')
        || (headIs (pystrip s) '(' && lastIs (pystrip s) ')')) = true)
    (hok : literalEval (pystrip s) = some v)
    (hlist : ∀ xs, v ≠ .pylist xs)
    (htuple : ∀ xs, v ≠ .pytuple xs) :
    parse_str_list (.pystr s) = splitCommaClean (pystrip s) := by
  have htext : ¬ pystrip s = "" := by
    intro h
    rw [h] at hdelim
    simp [headIs, lastIs] at hdelim
  show parse_str_list (.pystr s) = _
  unfold parse_str_list
  simp only [pyIsna, pyStr, if_false, Bool.false_eq_true]
  rw [if_neg htext, if_pos hdelim]
  unfold literalBranch
  rw [hok]
  cases v with
  | pylist xs => exact absurd rfl (hlist xs)
  | pytuple xs => exact absurd rfl (htuple xs)
  | pystr a => rfl
  | pyint a => rfl
  | pyfloat a => rfl
  | pybool a => rfl
  | pynone => rfl
  | pynan => rfl

/-- Witness for C10 at the spec's input `"(5)"`: the trimmed text is
paren-delimited, parses to the integer `5`, and the parser returns
`["(5)"]`. -/
theorem claim_C10_witness :
    (((headIs (pystrip "(5)") '[' && lastIs (pystrip "(5)") ']')
        || (headIs (pystrip "(5)") '(' && lastIs (pystrip "(5)") ')')) = true)
    ∧ literalEval (pystrip "(5)") = some (.pyint 5)
    ∧ parse_str_list (.pystr "(5)") = ["(5)"] := by
  refine ⟨by decide, rfl, ?_⟩
  have h := claim_C10_nonlist_literal_falls_back "(5)" (.pyint 5) (by decide) rfl
    (fun xs => by intro hc; cases hc) (fun xs => by intro hc; cases hc)
  exact h.trans (by decide)

/-! ## Claim C9 -/

/-- Claim C9: for every input value the Cell List Parser terminates without
raising and returns a (possibly empty) list of strings: the version with all
exception-bearing calls threaded through `Except` always returns `ok` with
the pure parser's result. -/
theorem claim_C9_parse_never_raises (cell : PyVal) :
    parse_str_listE cell = Except.ok (parse_str_list cell) := by
  have hbranch : ∀ t : String, literalBranchE t = Except.ok (literalBranch t) := by
    intro t
    unfold literalBranchE literalBranch
    rcases h : literalEval t with _ | v
    · simp only [literalEvalE, h]
    · simp only [literalEvalE, h]
      cases v <;> rfl
  cases cell <;> try rfl
  all_goals (
    unfold parse_str_listE parse_str_list
    simp only [pyIsnaE]
    split
    · rfl
    · split
      · rfl
      · split
        · exact hbranch _
        · rfl)

/-! ## Claim C7 -/

/-- Claim C7: the patience view contains exactly the rows of the coerced
table whose duration is defined and `≥ 220`, sorted descending by duration;
a duration of exactly `220` is included, `219.999` is excluded, and a
missing duration is excluded. -/
theorem claim_C7_patience_view :
    (∀ df : List MovieRecord,
      (∀ r, r ∈ patience_df df ↔ (r ∈ df ∧ ∃ d, r.duration = some d ∧ 220 ≤ d))
      ∧ List.Sorted durGE (patience_df df))
    ∧ mkMovie (some 220) ∈ patience_df [mkMovie (some 220)]
    ∧ ¬ mkMovie (some (219999/1000)) ∈ patience_df [mkMovie (some (219999/1000))]
    ∧ ¬ mkMovie Option.none ∈ patience_df [mkMovie Option.none] := by
  have main : ∀ df : List MovieRecord,
      (∀ r, r ∈ patience_df df ↔ (r ∈ df ∧ ∃ d, r.duration = some d ∧ 220 ≤ d))
      ∧ List.Sorted durGE (patience_df df) := by
    intro df
    constructor
    · intro r
      unfold patience_df
      rw [(List.perm_insertionSort durGE _).mem_iff, List.mem_filter]
      constructor
      · rintro ⟨hr, hp⟩
        refine ⟨hr, ?_⟩
        rcases hd : r.duration with _ | d
        · rw [hd] at hp
          simp at hp
        · rw [hd] at hp
          exact ⟨d, rfl, of_decide_eq_true hp⟩
      · rintro ⟨hr, d, hd, hge⟩
        refine ⟨hr, ?_⟩
        rw [hd]
        exact decide_eq_true hge
    · exact List.sorted_insertionSort durGE _
  refine ⟨main, ?_, ?_, ?_⟩
  · exact ((main _).1 _).mpr ⟨List.mem_singleton_self _, 220, rfl, le_refl _⟩
  · intro hmem
    rcases ((main _).1 _).mp hmem with ⟨_, d, hd, hge⟩
    have hd' : some ((219999 : ℚ)/1000) = some d := hd
    rw [Option.some.injEq] at hd'
    rw [← hd'] at hge
    norm_num at hge
  · intro hmem
    rcases ((main _).1 _).mp hmem with ⟨_, d, hd, _⟩
    exact Option.noConfusion hd

/-! ## Claim C3 -/

/-- Claim C3: schema validation fails naming exactly the absent required
columns and the pipeline halts before coercion; with all 14 expected columns
present (extras allowed) it succeeds, and the output table has exactly the
14 expected columns in canonical order, extras dropped. -/
theorem claim_C3_schema_validation (t : RawTable) :
    (∀ c, c ∈ missing_cols t ↔ (c ∈ EXPECTED_COLUMNS ∧ ¬ c ∈ t.cols))
    ∧ (missing_cols t ≠ [] → run_pipeline t = Except.error (missing_cols t))
    ∧ (missing_cols t = [] →
        run_pipeline t
          = Except.ok (EXPECTED_COLUMNS, ensure_dtypes (t.rows.map projectRow))
        ∧ EXPECTED_COLUMNS.length = 14
        ∧ ∀ r, (projectRow r).map Prod.fst = EXPECTED_COLUMNS) := by
  refine ⟨?_, ?_, ?_⟩
  · intro c
    simp [missing_cols, List.mem_filter, List.elem_iff]
  · intro h
    unfold run_pipeline
    rw [if_neg h]
  · intro h
    refine ⟨?_, by decide, ?_⟩
    · unfold run_pipeline
      rw [if_pos h]
    · intro r
      simp only [projectRow, List.map_map]
      exact List.map_id _

/-- A raw table containing every expected column except `gross`. -/
def tableMissingGross : RawTable :=
  { cols := ["url", "title", "ratingValue", "ratingCount", "year",
             "description", "budget", "duration", "genreList", "countryList",
             "castList", "characterList", "directorList"]
    rows := [] }

/-- A raw table with all 14 expected columns plus an extra one. -/
def tableAllColsExtra : RawTable :=
  { cols := "extra" :: EXPECTED_COLUMNS
    rows := [] }

/-- Witness for C3: a table missing only `gross` fails naming exactly
`["gross"]`, and a table with all 14 columns plus an extra one succeeds with
exactly the canonical columns. -/
theorem claim_C3_witness :
    missing_cols tableMissingGross = ["gross"]
    ∧ run_pipeline tableMissingGross = Except.error ["gross"]
    ∧ missing_cols tableAllColsExtra = []
    ∧ run_pipeline tableAllColsExtra = Except.ok (EXPECTED_COLUMNS, []) := by
  have h1 : missing_cols tableMissingGross = ["gross"] := by decide
  refine ⟨h1, ?_, by decide, ?_⟩
  · have h3 := (claim_C3_schema_validation tableMissingGross).2.1 (by decide)
    rw [h1] at h3
    exact h3
  · exact ((claim_C3_schema_validation tableAllColsExtra).2.2 (by decide)).1

/-! ## Claim C2 -/

/-- Counterexample to C2 as stated: on a one-row table whose
`directorList` is empty, the exploder (`explode` + rename, with no
`dropna`) emits one row — with a missing director — not zero rows. -/
theorem claim_C2_counterexample :
    explodeOn MovieRecord.directorList [mkMovie Option.none]
        = [(Option.none, mkMovie Option.none)]
    ∧ explodeOn MovieRecord.directorList [mkMovie Option.none] ≠ [] :=
  ⟨rfl, fun h => List.noConfusion h⟩

/-- Claim C2 (amended): for every table and list-valued column, the exploder
emits one output row per element of a non-empty list, in original list
order, with all other fields copied verbatim; a row whose list is *empty*
contributes one output row whose entity value is missing (pandas `explode`
puts `NaN` there), not zero rows. -/
theorem claim_C2_amended_exploder (get : MovieRecord → List String)
    (df : List MovieRecord) :
    (explodeOn get df).length = (df.map (fun r => max (get r).length 1)).sum
    ∧ (∀ p ∈ explodeOn get df,
        p.2 ∈ df ∧ (p.1 = Option.none → get p.2 = [])
          ∧ (∀ a, p.1 = some a → a ∈ get p.2))
    ∧ (∀ r, get r ≠ [] →
        explodeOn get [r] = (get r).map (fun x => (some x, r)))
    ∧ (∀ r, get r = [] → explodeOn get [r] = [(Option.none, r)]) := by
  refine ⟨?_, ?_, ?_, ?_⟩
  · induction df with
    | nil => rfl
    | cons r rest ih =>
      rw [explodeOn, List.flatMap_cons, List.length_append, List.map_cons,
        List.sum_cons, ← explodeOn, ih]
      rcases h : get r with _ | ⟨x, xs⟩
      · simp
      · simp [Nat.max_eq_left (Nat.succ_le_succ (Nat.zero_le _))]
  · intro p hp
    rw [explodeOn, List.mem_flatMap] at hp
    rcases hp with ⟨r, hr, hpr⟩
    rcases h : get r with _ | ⟨x, xs⟩
    · rw [h] at hpr
      rcases List.mem_singleton.mp hpr with rfl
      exact ⟨hr, fun _ => h, fun a ha => Option.noConfusion ha⟩
    · rw [h] at hpr
      rcases List.mem_map.mp hpr with ⟨a, ha, rfl⟩
      refine ⟨hr, fun hnone => Option.noConfusion hnone, ?_⟩
      intro b hb
      rw [Option.some.injEq] at hb
      rw [← hb, h]
      exact ha
  · intro r hne
    rcases h : get r with _ | ⟨x, xs⟩
    · exact absurd h hne
    · rw [explodeOn, List.flatMap_cons, h]
      simp
  · intro r h
    rw [explodeOn, List.flatMap_cons, h]
    rfl

/-- A record with two directors and two cast members, for the witnesses. -/
def twoDirMovie : MovieRecord :=
  { mkMovie (some 100) with directorList := ["D1", "D2"] }

/-- Witness for C2 (amended) on concrete rows: a two-element list explodes
to exactly its two elements in order with the record copied, and an empty
list contributes one missing-entity row. -/
theorem claim_C2_witness :
    (explodeOn MovieRecord.directorList [twoDirMovie]).length = 2
    ∧ explodeOn MovieRecord.directorList [twoDirMovie]
        = [(some "D1", twoDirMovie), (some "D2", twoDirMovie)]
    ∧ explodeOn MovieRecord.directorList [mkMovie (some 7)]
        = [(Option.none, mkMovie (some 7))] := by
  refine ⟨?_, ?_, ?_⟩
  · rw [(claim_C2_amended_exploder MovieRecord.directorList [twoDirMovie]).1]
    decide
  · exact (claim_C2_amended_exploder MovieRecord.directorList
      [twoDirMovie]).2.2.1 twoDirMovie (by decide)
  · exact (claim_C2_amended_exploder MovieRecord.directorList
      [mkMovie (some 7)]).2.2.2 (mkMovie (some 7)) rfl

/-! ## Claim C8 -/

/-- `df_cast` distributes over appended tables. -/
theorem df_cast_append (l₁ l₂ : List MovieRecord) :
    df_cast (l₁ ++ l₂) = df_cast l₁ ++ df_cast l₂ := by
  unfold df_cast explodeOn
  rw [List.flatMap_append, List.filterMap_append]

/-- Claim C8: in the exploded actor view (explode, null-actor removal,
trimming), a source row with an empty `castList` contributes zero rows, and
a source row with `castList = [a, b]` contributes exactly the two rows
`(strip a, row)` and `(strip b, row)` — each carrying the whole source row,
hence its `title` and `duration`. -/
theorem claim_C8_actor_view_rows (df₁ df₂ : List MovieRecord)
    (r : MovieRecord) :
    (r.castList = [] →
      df_cast (df₁ ++ r :: df₂) = df_cast df₁ ++ df_cast df₂)
    ∧ (∀ a b, r.castList = [a, b] →
        df_cast (df₁ ++ r :: df₂)
          = df_cast df₁ ++ (pystrip a, r) :: (pystrip b, r) :: df_cast df₂) := by
  have hsplit : df_cast (df₁ ++ r :: df₂) = df_cast df₁ ++ df_cast [r] ++ df_cast df₂ := by
    rw [show df₁ ++ r :: df₂ = (df₁ ++ [r]) ++ df₂ by simp, df_cast_append,
      df_cast_append]
  constructor
  · intro h
    have hr : df_cast [r] = [] := by
      unfold df_cast explodeOn
      rw [List.flatMap_cons, h]
      rfl
    rw [hsplit, hr, List.append_nil]
  · intro a b h
    have hr : df_cast [r] = [(pystrip a, r), (pystrip b, r)] := by
      unfold df_cast explodeOn
      rw [List.flatMap_cons, h]
      rfl
    rw [hsplit, hr]
    simp

/-- A record with a two-element cast list, for the C8 witness. -/
def castMovie : MovieRecord :=
  { mkMovie (some 142) with title := .pystr "T", castList := ["A", "B"] }

/-- Witness for C8 at concrete rows: `castList = ["A", "B"]` contributes
exactly two rows carrying the record (hence its title and duration), and an
empty `castList` contributes zero rows. -/
theorem claim_C8_witness :
    castMovie.castList = ["A", "B"]
    ∧ (mkMovie (some 5)).castList = []
    ∧ df_cast [castMovie] = [("A", castMovie), ("B", castMovie)]
    ∧ df_cast [mkMovie (some 5)] = []
    ∧ ("A", castMovie).2.title = castMovie.title
    ∧ ("A", castMovie).2.duration = castMovie.duration := by
  refine ⟨rfl, rfl, ?_, ?_, rfl, rfl⟩
  · exact (claim_C8_actor_view_rows [] [] castMovie).2 "A" "B" rfl
  · exact (claim_C8_actor_view_rows [] [] (mkMovie (some 5))).1 rfl

/-! ## Claim C1 -/

/-- `Series.sum()` equals the plain sum of the present values (and is
therefore `0`, not missing, on an all-missing or empty series). -/
theorem pdSum_eq_sum (l : List (Option ℚ)) :
    pdSum l = (l.filterMap id).sum := by
  suffices h : ∀ acc : ℚ,
      List.foldl (fun acc x =>
        match x with
        | some v => acc + v
        | Option.none => acc) acc l = acc + (l.filterMap id).sum by
    simpa [pdSum] using h 0
  induction l with
  | nil =>
    intro acc
    simp
  | cons x xs ih =>
    intro acc
    cases x with
    | none =>
      rw [List.foldl_cons, ih]
      simp
    | some v =>
      rw [List.foldl_cons, ih]
      simp [add_assoc]

/-- Counterexample to C1's all-null passthrough: on a table whose single
movie is directed by Steven Spielberg and has a missing duration, the
selected rows are non-empty and all have missing duration, yet the reported
total is the definite value `0`, not a missing value. -/
theorem claim_C1_counterexample :
    spielberg_df [{ mkMovie Option.none with directorList := ["Steven Spielberg"] }]
        = [(some "Steven Spielberg",
            { mkMovie Option.none with directorList := ["Steven Spielberg"] })]
    ∧ (∀ p ∈ spielberg_df
          [{ mkMovie Option.none with directorList := ["Steven Spielberg"] }],
        p.2.duration = Option.none)
    ∧ spielberg_total_duration
        [{ mkMovie Option.none with directorList := ["Steven Spielberg"] }] = 0 := by
  have h : spielberg_df
      [{ mkMovie Option.none with directorList := ["Steven Spielberg"] }]
      = [(some "Steven Spielberg",
          { mkMovie Option.none with directorList := ["Steven Spielberg"] })] := rfl
  refine ⟨h, ?_, rfl⟩
  intro p hp
  rw [h] at hp
  rcases List.mem_singleton.mp hp with rfl
  rfl

/-- Claim C1 (amended): the Spielberg view explodes `directorList` into a
director field and selects exactly the rows whose director, lowercased,
equals `"Steven Spielberg"` lowercased; the selected rows are displayed
sorted ascending by year; but the reported total duration is the plain sum
of the present durations — `0`, not missing, when every selected row's
duration is missing. -/
theorem claim_C1_amended_spielberg_view (df : List MovieRecord) :
    (∀ p, p ∈ spielberg_df df ↔
        (p ∈ df_directors df
          ∧ ∃ s, p.1 = some s ∧ pylower s = pylower "Steven Spielberg"))
    ∧ spielberg_total_duration df
        = (((spielberg_df df).map (fun p => p.2.duration)).filterMap id).sum
    ∧ List.Sorted yearRowLE (spielberg_display df)
    ∧ (spielberg_display df).Perm (spielberg_df df) := by
  refine ⟨?_, ?_, List.sorted_insertionSort _ _, List.perm_insertionSort _ _⟩
  · intro p
    unfold spielberg_df
    rw [List.mem_filter]
    constructor
    · rintro ⟨hmem, hpred⟩
      refine ⟨hmem, ?_⟩
      rcases h1 : p.1 with _ | s
      · rw [h1] at hpred
        exact absurd hpred (by simp)
      · rw [h1] at hpred
        have hpred' : (pylower s == "steven spielberg") = true := hpred
        exact ⟨s, rfl, (beq_iff_eq.mp hpred').trans (by decide)⟩
    · rintro ⟨hmem, s, hs, hlow⟩
      refine ⟨hmem, ?_⟩
      rw [hs]
      show (pylower s == "steven spielberg") = true
      exact beq_iff_eq.mpr (hlow.trans (by decide))
  · rw [spielberg_total_duration, pdSum_eq_sum]

/-! ## Grouping lemmas shared by C5 and C6 -/

/-- Every exploded row comes from a source row, a missing entity marks an
empty source list, and a present entity is an element of the source list. -/
theorem mem_explodeOn {get : MovieRecord → List String} {df : List MovieRecord}
    {p : Option String × MovieRecord} (hp : p ∈ explodeOn get df) :
    p.2 ∈ df ∧ (p.1 = Option.none → get p.2 = [])
      ∧ (∀ a, p.1 = some a → a ∈ get p.2) := by
  rw [explodeOn, List.mem_flatMap] at hp
  rcases hp with ⟨r, hr, hpr⟩
  rcases h : get r with _ | ⟨x, xs⟩
  · rw [h] at hpr
    rcases List.mem_singleton.mp hpr with rfl
    exact ⟨hr, fun _ => h, fun a ha => Option.noConfusion ha⟩
  · rw [h] at hpr
    rcases List.mem_map.mp hpr with ⟨a, ha, rfl⟩
    refine ⟨hr, fun hnone => Option.noConfusion hnone, ?_⟩
    intro b hb
    rw [Option.some.injEq] at hb
    rw [← hb, h]
    exact ha

/-- Conversely, every element of a source row's list produces an exploded row. -/
theorem explodeOn_mem {get : MovieRecord → List String} {df : List MovieRecord}
    {r : MovieRecord} (hr : r ∈ df) {a : String} (ha : a ∈ get r) :
    (some a, r) ∈ explodeOn get df := by
  rw [explodeOn, List.mem_flatMap]
  refine ⟨r, hr, ?_⟩
  rcases h : get r with _ | ⟨x, xs⟩
  · rw [h] at ha
    cases ha
  · rw [h] at ha
    exact List.mem_map.mpr ⟨a, ha, rfl⟩

/-- The group keys are duplicate-free. -/
theorem groupKeys_nodup (rows : List (String × MovieRecord)) :
    (groupKeys rows).Nodup := by
  unfold groupKeys
  exact ((List.perm_insertionSort strLE _).nodup_iff).mpr (List.nodup_dedup _)

/-- Filtering a duplicate-free list for one of its members leaves exactly
that member. -/
theorem nodup_filter_beq_eq {l : List String} {k : String}
    (hnd : l.Nodup) (hk : k ∈ l) : l.filter (fun x => x == k) = [k] := by
  induction l with
  | nil => cases hk
  | cons a as ih =>
    rcases List.nodup_cons.mp hnd with ⟨hna, hnd'⟩
    rcases List.mem_cons.mp hk with rfl | hk'
    · rw [List.filter_cons, if_pos (by simp)]
      have hnil : as.filter (fun x => x == k) = [] := by
        rw [List.filter_eq_nil_iff]
        intro x hx hbx
        rw [beq_iff_eq.mp hbx] at hx
        exact hna hx
      rw [hnil]
    · have hak : ¬ (a == k) = true := by
        intro hba
        rw [beq_iff_eq.mp hba] at hna
        exact hna hk'
      rw [List.filter_cons, if_neg hak]
      exact ih hnd' hk'

/-- In the per-group aggregate table, the entry of a key all of whose group
members have a missing metric value is exactly `(key, missing)`. -/
theorem groupNullSum_filter_eq (rows : List (String × MovieRecord))
    (metric : MovieRecord → Option ℚ) (k : String)
    (hk : k ∈ groupKeys rows)
    (hall : ∀ p ∈ rows, p.1 = k → metric p.2 = Option.none) :
    (groupNullSum rows metric).filter (fun p => p.1 == k)
      = [(k, Option.none)] := by
  unfold groupNullSum
  rw [List.filter_map]
  have hcomp : ((fun p : String × Option ℚ => p.1 == k) ∘
      (fun k' => (k',
        nullSum ((rows.filter (fun p => p.1 == k')).map (fun p => metric p.2)))))
      = fun k' => k' == k := rfl
  rw [hcomp, nodup_filter_beq_eq (groupKeys_nodup rows) hk]
  have hnil : ((rows.filter (fun p => p.1 == k)).map
      (fun p => metric p.2)).filterMap id = [] := by
    apply List.filterMap_eq_nil_iff.mpr
    intro a ha
    rcases List.mem_map.mp ha with ⟨p, hp, rfl⟩
    rcases List.mem_filter.mp hp with ⟨hmem, hbeq⟩
    exact hall p hmem (beq_iff_eq.mp hbeq)
  simp only [List.map_cons, List.map_nil, nullSum, hnil]
  rfl

/-- A sorted aggregate table keeps exactly the `(key, missing)` entry for an
all-missing group. -/
theorem sortedAgg_filter_eq (rows : List (String × MovieRecord))
    (metric : MovieRecord → Option ℚ) (k : String)
    (hk : k ∈ groupKeys rows)
    (hall : ∀ p ∈ rows, p.1 = k → metric p.2 = Option.none) :
    ((List.insertionSort aggGE (groupNullSum rows metric)).filter
        (fun p => p.1 == k)).map Prod.snd = [Option.none] := by
  have hperm := (List.perm_insertionSort aggGE
    (groupNullSum rows metric)).filter (fun p => p.1 == k)
  rw [groupNullSum_filter_eq rows metric k hk hall] at hperm
  rw [List.perm_singleton.mp hperm]
  rfl

/-- Descending-with-nulls-last order never puts a present value after a
missing one. -/
theorem aggGE_none_imp {p q : String × Option ℚ} (h : aggGE p q) :
    p.2 = Option.none → q.2 = Option.none := by
  intro hp
  rcases hq : q.2 with _ | v
  · rfl
  · unfold aggGE at h
    rw [hp, hq] at h
    simp [optDescLE] at h

/-- In a table sorted by `aggGE`, every entry after a missing aggregate is
itself missing. -/
theorem pairwise_null_last (l : List (String × Option ℚ)) :
    List.Pairwise (fun p q => p.2 = Option.none → q.2 = Option.none)
      (List.insertionSort aggGE l) :=
  (List.sorted_insertionSort aggGE l).imp (fun h => aggGE_none_imp h)

/-! ## Claim C5 -/

/-- Claim C5: in the screentime and gross rankings, an actor group all of
whose member rows have a missing metric value gets a missing aggregate (its
table entry is exactly `(actor, missing)`), and entries with a missing
aggregate sort after every entry with a present one, also within the top-10
truncations. -/
theorem claim_C5_allnull_groups (df : List MovieRecord) (k : String) :
    (k ∈ groupKeys (df_cast df) →
        (∀ p ∈ df_cast df, p.1 = k → p.2.duration = Option.none) →
        ((screentime df).filter (fun p => p.1 == k)).map Prod.snd
          = [Option.none])
    ∧ (k ∈ groupKeys (df_cast df) →
        (∀ p ∈ df_cast df, p.1 = k → p.2.gross = Option.none) →
        ((most_gross df).filter (fun p => p.1 == k)).map Prod.snd
          = [Option.none])
    ∧ List.Pairwise (fun p q : String × Option ℚ =>
        p.2 = Option.none → q.2 = Option.none) (screentime df)
    ∧ List.Pairwise (fun p q : String × Option ℚ =>
        p.2 = Option.none → q.2 = Option.none) (most_gross df)
    ∧ List.Pairwise (fun p q : String × Option ℚ =>
        p.2 = Option.none → q.2 = Option.none) (screentime_top10 df)
    ∧ List.Pairwise (fun p q : String × Option ℚ =>
        p.2 = Option.none → q.2 = Option.none) (most_gross_top10 df) := by
  refine ⟨?_, ?_, ?_, ?_, ?_, ?_⟩
  · intro hk hall
    unfold screentime
    exact sortedAgg_filter_eq (df_cast df) MovieRecord.duration k hk hall
  · intro hk hall
    unfold most_gross
    exact sortedAgg_filter_eq (df_cast df) MovieRecord.gross k hk hall
  · exact pairwise_null_last _
  · exact pairwise_null_last _
  · exact List.Pairwise.sublist (List.take_sublist 10 _) (pairwise_null_last _)
  · exact List.Pairwise.sublist (List.take_sublist 10 _) (pairwise_null_last _)

/-- A one-movie table whose only cast member appears in a film with missing
duration and gross. -/
def soloTable : List MovieRecord :=
  [{ mkMovie Option.none with castList := ["Solo"] }]

/-- Witness for C5: on `soloTable` the hypotheses hold concretely, and both
rankings carry the entry `("Solo", missing)`. -/
theorem claim_C5_witness :
    "Solo" ∈ groupKeys (df_cast soloTable)
    ∧ ((screentime soloTable).filter (fun p => p.1 == "Solo")).map Prod.snd
        = [Option.none]
    ∧ ((most_gross soloTable).filter (fun p => p.1 == "Solo")).map Prod.snd
        = [Option.none] := by
  refine ⟨by decide, ?_, ?_⟩
  · exact (claim_C5_allnull_groups soloTable "Solo").1 (by decide) (by decide)
  · exact (claim_C5_allnull_groups soloTable "Solo").2.1 (by decide) (by decide)

/-! ## Claim C6 -/

/-- A one-movie table whose cast list contains a normal name and an empty
string. -/
def emptyActorMovie : MovieRecord :=
  { mkMovie Option.none with castList := ["A", ""] }

/-- The table holding just `emptyActorMovie`. -/
def emptyActorTable : List MovieRecord :=
  [emptyActorMovie]

/-- Counterexample to C6 as stated: with a cast entry that is the empty
string, all three rankings contain an actor group with the empty name —
`dropna` removes only missing actors, not empty strings. -/
theorem claim_C6_counterexample :
    "" ∈ (screentime_top10 emptyActorTable).map Prod.fst
    ∧ "" ∈ (most_gross_top10 emptyActorTable).map Prod.fst
    ∧ "" ∈ (most_active_top10 emptyActorTable).map Prod.fst :=
  ⟨by decide, by decide, by decide⟩

/-- Claim C6 (amended): the three rankings group by exact string equality of
the trimmed actor value, and the group keys are exactly the trimmed cast
entries of the table — so null actors (arising only from empty cast lists)
are excluded by `dropna`, but entries that are empty after trimming are NOT
excluded and form a group named by the empty string. -/
theorem claim_C6_amended_actor_grouping (df : List MovieRecord) (k : String) :
    (k ∈ groupKeys (df_cast df)
      ↔ ∃ r ∈ df, ∃ a ∈ r.castList, pystrip a = k)
    ∧ (∀ x ∈ screentime_top10 df, x.1 ∈ groupKeys (df_cast df))
    ∧ (∀ x ∈ most_gross_top10 df, x.1 ∈ groupKeys (df_cast df))
    ∧ (∀ x ∈ most_active_top10 df, x.1 ∈ groupKeys (df_cast df)) := by
  have hmemkeys : ∀ x : String,
      x ∈ groupKeys (df_cast df) ↔ x ∈ (df_cast df).map Prod.fst := by
    intro x
    unfold groupKeys
    rw [(List.perm_insertionSort strLE _).mem_iff, List.mem_dedup]
  refine ⟨?_, ?_, ?_, ?_⟩
  · rw [hmemkeys, List.mem_map]
    constructor
    · rintro ⟨p, hp, rfl⟩
      unfold df_cast at hp
      rcases List.mem_filterMap.mp hp with ⟨q, hq, hfq⟩
      rcases hq1 : q.1 with _ | a
      · rw [hq1] at hfq
        exact Option.noConfusion hfq
      · rw [hq1] at hfq
        rw [Option.some.injEq] at hfq
        obtain ⟨hq2, _, hq3⟩ := mem_explodeOn hq
        refine ⟨q.2, hq2, a, hq3 a hq1, ?_⟩
        rw [← hfq]
    · rintro ⟨r, hr, a, ha, rfl⟩
      refine ⟨(pystrip a, r), ?_, rfl⟩
      unfold df_cast
      exact List.mem_filterMap.mpr ⟨(some a, r), explodeOn_mem hr ha, rfl⟩
  · intro x hx
    unfold screentime_top10 screentime at hx
    have hx1 := (List.take_sublist 10 _).subset hx
    have hx2 := (List.perm_insertionSort aggGE _).mem_iff.mp hx1
    unfold groupNullSum at hx2
    rcases List.mem_map.mp hx2 with ⟨k', hk', rfl⟩
    exact hk'
  · intro x hx
    unfold most_gross_top10 most_gross at hx
    have hx1 := (List.take_sublist 10 _).subset hx
    have hx2 := (List.perm_insertionSort aggGE _).mem_iff.mp hx1
    unfold groupNullSum at hx2
    rcases List.mem_map.mp hx2 with ⟨k', hk', rfl⟩
    exact hk'
  · intro x hx
    unfold most_active_top10 most_active at hx
    have hx1 := (List.take_sublist 10 _).subset hx
    have hx2 := (List.perm_insertionSort natGE _).mem_iff.mp hx1
    rcases List.mem_map.mp hx2 with ⟨k', hk', rfl⟩
    exact hk'

/-- Witness for C6 (amended) on `emptyActorTable`: the key `"A"` is a group
key since it is a trimmed cast entry, and the key of a concrete top-10
screentime entry is a group key. -/
theorem claim_C6_witness :
    "A" ∈ groupKeys (df_cast emptyActorTable)
    ∧ ("A", (Option.none : Option ℚ)).1 ∈ groupKeys (df_cast emptyActorTable) := by
  constructor
  · exact (claim_C6_amended_actor_grouping emptyActorTable "A").1.mpr
      ⟨emptyActorMovie, List.mem_singleton_self _, "A", by decide, rfl⟩
  · exact (claim_C6_amended_actor_grouping emptyActorTable "A").2.1
      ("A", Option.none) (by decide)

/-! ## Concrete instantiations of C1 and C7 -/

/-- A one-movie Spielberg table with a present duration, for the C1 witness. -/
def spielbergMovie : MovieRecord :=
  { mkMovie (some 142) with directorList := ["Steven Spielberg"] }

/-- Witness for C1 (amended) at a concrete table: the single exploded row is
selected by the case-insensitive comparison. -/
theorem claim_C1_witness :
    (some "Steven Spielberg", spielbergMovie)
      ∈ spielberg_df [spielbergMovie] := by
  apply ((claim_C1_amended_spielberg_view [spielbergMovie]).1
    (some "Steven Spielberg", spielbergMovie)).mpr
  refine ⟨?_, "Steven Spielberg", rfl, rfl⟩
  rw [show df_directors [spielbergMovie]
      = [(some "Steven Spielberg", spielbergMovie)] from rfl]
  exact List.mem_singleton_self _

/-- Witness for C7 at a concrete table: a 300-minute movie is in the
patience view. -/
theorem claim_C7_witness :
    mkMovie (some 300) ∈ patience_df [mkMovie (some 300)] :=
  ((claim_C7_patience_view.1 [mkMovie (some 300)]).1 (mkMovie (some 300))).mpr
    ⟨List.mem_singleton_self _, 300, rfl, by decide⟩
